import Mathlib

/-
Shallow embedding of src/arduino.ino (Arduino BLE number-sender firmware).

The firmware's mutable state is the set of module-level globals declared at
lines 8-14 of the sketch.  `millis()` readings, the presence of a connected
central, the result of each characteristic write and each RSSI reading are
external inputs; they are passed in explicitly.  Serial prints and
characteristic writes are modelled as an event trace.  `unsigned long`
arithmetic is 32-bit, so the elapsed-time computations `a - b` on
`unsigned long` are modelled by subtraction modulo 2^32 (`ulSub`).
The `int` counter is modelled as `Int`; its value never leaves [0, 101)
under the wrap at line 176, so machine overflow is unreachable.
-/

namespace Arduino

/-- Modulus of `unsigned long` (32-bit) arithmetic used by `millis()`
    timestamps. -/
def UL_MOD : Nat := 4294967296

/-- C unsigned 32-bit subtraction `a - b`, as used in the elapsed-time
    tests of the sketch (lines 146, 173, 190). -/
def ulSub (a b : Nat) : Nat :=
  (a % UL_MOD + (UL_MOD - b % UL_MOD)) % UL_MOD

/-- Line 14: `const unsigned long NUMBER_SEND_INTERVAL = 1000;`. -/
def NUMBER_SEND_INTERVAL : Nat := 1000

/-- The module-level globals of the sketch, lines 8-13. -/
structure FwState where
  lastHeartbeat : Nat
  connectionStartTime : Nat
  totalConnections : Nat
  wasConnected : Bool
  currentNumber : Int
  lastNumberSent : Nat
deriving DecidableEq

/-- Observable effects of one pass of the firmware: characteristic writes
    (with their payload and success/failure) and the diagnostic prints the
    spec cares about. -/
inductive Event where
  | idleHeartbeat
  | connected
  | sent (v : Int)
  | sendFailed (v : Int)
  | heartbeat (rssi : Int)
  | disconnected (durSec : Nat)
  | advertise
deriving DecidableEq

/-- External inputs consumed by one iteration of the inner connected
    `while` loop (lines 169-198): the `millis()` reading at line 170, the
    result of `numberCharacteristic.writeValue` at line 179, and the
    `central.rssi()` reading at line 191. -/
structure TickInput where
  time : Nat
  writeOk : Bool
  rssi : Int
deriving DecidableEq

/-- External inputs consumed by one call of `loop()` (lines 142-220): the
    `millis()` reading at line 143, whether `BLE.central()` returned a
    connected central, the inputs of each inner-loop iteration executed
    before `central.connected()` turns false, and the `millis()` readings
    at lines 204 and 215 of the disconnect path. -/
structure LoopInput where
  time : Nat
  centralPresent : Bool
  ticks : List TickInput
  dcLogTime : Nat
  dcResetTime : Nat

/-- Lines 146-151: update `lastHeartbeat` whenever more than 10000 ms have
    elapsed, printing the waiting heartbeat only when not connected. -/
def idleHeartbeatStep (s : FwState) (currentTime : Nat) : FwState × List Event :=
  if ulSub currentTime s.lastHeartbeat > 10000 then
    ({ s with lastHeartbeat := currentTime },
     if s.wasConnected then [] else [Event.idleHeartbeat])
  else (s, [])

/-- Lines 156-166: on a poll that returns a central while `wasConnected`
    is false, record the session start, bump the diagnostic connection
    count and log the new connection. -/
def connectStep (s : FwState) (currentTime : Nat) : FwState × List Event :=
  if s.wasConnected then (s, [])
  else
    ({ s with wasConnected := true
            , connectionStartTime := currentTime
            , totalConnections := s.totalConnections + 1 },
     [Event.connected])

/-- Lines 173-187: if at least `NUMBER_SEND_INTERVAL` ms elapsed since
    `lastNumberSent`, increment `currentNumber`, wrap it to 0 when it
    exceeds 100, write it to the characteristic (success or failure is an
    external input), and set `lastNumberSent` to the current time in either
    case. -/
def sendStep (s : FwState) (inp : TickInput) : FwState × List Event :=
  if ulSub inp.time s.lastNumberSent ≥ NUMBER_SEND_INTERVAL then
    let n0 := s.currentNumber + 1
    let n := if n0 > 100 then 0 else n0
    ({ s with currentNumber := n, lastNumberSent := inp.time },
     [if inp.writeOk then Event.sent n else Event.sendFailed n])
  else (s, [])

/-- Lines 190-194: print the connection-alive heartbeat with the RSSI
    reading when more than 30000 ms elapsed since `lastHeartbeat`, and
    reset `lastHeartbeat`. -/
def hbStep (s : FwState) (inp : TickInput) : FwState × List Event :=
  if ulSub inp.time s.lastHeartbeat > 30000 then
    ({ s with lastHeartbeat := inp.time }, [Event.heartbeat inp.rssi])
  else (s, [])

/-- One iteration of the inner `while (central.connected())` body,
    lines 169-198 (the trailing `delay(50)` has no modelled effect). -/
def connectedTick (s : FwState) (inp : TickInput) : FwState × List Event :=
  let r1 := sendStep s inp
  let r2 := hbStep r1.1 inp
  (r2.1, r1.2 ++ r2.2)

/-- The inner connected loop run over the list of iterations executed
    while `central.connected()` stays true. -/
def connectedLoop (s : FwState) (ticks : List TickInput) : FwState × List Event :=
  match ticks with
  | [] => (s, [])
  | t :: rest =>
    let r1 := connectedTick s t
    let r2 := connectedLoop r1.1 rest
    (r2.1, r1.2 ++ r2.2)

/-- Lines 200-215: connection lost.  Log the disconnect with the session
    duration, clear `wasConnected`, restart advertising and reset
    `lastHeartbeat` from a fresh `millis()` reading. -/
def disconnectStep (s : FwState) (logTime resetTime : Nat) : FwState × List Event :=
  ({ s with wasConnected := false, lastHeartbeat := resetTime },
   [Event.disconnected (ulSub logTime s.connectionStartTime / 1000), Event.advertise])

/-- One call of `loop()`, lines 142-220. -/
def loopIter (s : FwState) (inp : LoopInput) : FwState × List Event :=
  let r0 := idleHeartbeatStep s inp.time
  if inp.centralPresent then
    let r1 := connectStep r0.1 inp.time
    let r2 := connectedLoop r1.1 inp.ticks
    let r3 := disconnectStep r2.1 inp.dcLogTime inp.dcResetTime
    (r3.1, r0.2 ++ r1.2 ++ r2.2 ++ r3.2)
  else r0

/-- Repeated calls of `loop()`. -/
def run (s : FwState) (inputs : List LoopInput) : FwState × List Event :=
  match inputs with
  | [] => (s, [])
  | inp :: rest =>
    let r1 := loopIter s inp
    let r2 := run r1.1 rest
    (r2.1, r1.2 ++ r2.2)

/-- The global state at the end of a successful `setup()`: the
    initializers of lines 8-13, with `lastHeartbeat` set at line 139 from
    the `millis()` reading taken there. -/
def initState (setupEndTime : Nat) : FwState :=
  { lastHeartbeat := setupEndTime
  , connectionStartTime := 0
  , totalConnections := 0
  , wasConnected := false
  , currentNumber := 0
  , lastNumberSent := 0 }

/-- Whether the firmware reached the main loop or is stuck in the
    `while (1)` diagnostic halt of lines 96-99. -/
inductive Phase where
  | haltedInit
  | running (s : FwState)
deriving DecidableEq

/-- Lines 90-140 of `setup()`: if `BLE.begin()` fails the firmware enters
    the permanent halt loop, otherwise it finishes configuration and
    reaches the main loop with the initial global state. -/
def setupPhase (bleBeginOk : Bool) (setupEndTime : Nat) : Phase :=
  if bleBeginOk then Phase.running (initState setupEndTime) else Phase.haltedInit

/-- One scheduler step of the whole system: the halt loop of lines 96-99
    only delays and prints, so it never changes phase; otherwise one call
    of `loop()` runs. -/
def sysStep (p : Phase) (inp : LoopInput) : Phase :=
  match p with
  | Phase.haltedInit => Phase.haltedInit
  | Phase.running s => Phase.running (loopIter s inp).1

/-- Iterated system steps. -/
def sysRun (p : Phase) (inputs : List LoopInput) : Phase :=
  inputs.foldl sysStep p

/-- Payload of a characteristic write attempt (successful or failed). -/
def attemptVal : Event → Option Int
  | Event.sent v => some v
  | Event.sendFailed v => some v
  | _ => none

/-- Values passed to `writeValue` during a trace, in order. -/
def attemptVals (evs : List Event) : List Int := evs.filterMap attemptVal

/-- Payload of a successful characteristic write. -/
def sentVal : Event → Option Int
  | Event.sent v => some v
  | _ => none

/-- Values successfully written to the characteristic, in order. -/
def sentVals (evs : List Event) : List Int := evs.filterMap sentVal

/-- The Counter bound stated by the spec: `currentNumber ∈ [0, 100]`. -/
def counterInv (s : FwState) : Prop :=
  0 ≤ s.currentNumber ∧ s.currentNumber ≤ 100

theorem ulSub_eq_sub (a b : Nat) (hba : b ≤ a) (ha : a < UL_MOD) :
    ulSub a b = a - b := by
  unfold ulSub UL_MOD
  unfold UL_MOD at ha
  omega

theorem attemptVals_append (a b : List Event) :
    attemptVals (a ++ b) = attemptVals a ++ attemptVals b := by
  simp [attemptVals]

theorem sentVals_append (a b : List Event) :
    sentVals (a ++ b) = sentVals a ++ sentVals b := by
  simp [sentVals]

/-- Case analysis of one connected-loop iteration: either the send interval
    has not elapsed and the send-related state is untouched, or it has and
    the counter advances with wrap, the timestamp is committed, and exactly
    one write attempt is made. -/
theorem connectedTick_cases (s : FwState) (inp : TickInput) :
    (¬ 1000 ≤ ulSub inp.time s.lastNumberSent ∧
      (connectedTick s inp).1.currentNumber = s.currentNumber ∧
      (connectedTick s inp).1.lastNumberSent = s.lastNumberSent ∧
      attemptVals (connectedTick s inp).2 = [] ∧
      sentVals (connectedTick s inp).2 = []) ∨
    (1000 ≤ ulSub inp.time s.lastNumberSent ∧
      (connectedTick s inp).1.currentNumber
        = (if s.currentNumber + 1 > 100 then 0 else s.currentNumber + 1) ∧
      (connectedTick s inp).1.lastNumberSent = inp.time ∧
      attemptVals (connectedTick s inp).2
        = [if s.currentNumber + 1 > 100 then 0 else s.currentNumber + 1] ∧
      sentVals (connectedTick s inp).2
        = (if inp.writeOk then
            [if s.currentNumber + 1 > 100 then 0 else s.currentNumber + 1]
           else [])) := by
  unfold connectedTick sendStep hbStep NUMBER_SEND_INTERVAL
  by_cases hf : 1000 ≤ ulSub inp.time s.lastNumberSent
  · right
    refine ⟨hf, ?_⟩
    simp only [hf, if_pos]
    repeat' split
    all_goals
      simp [attemptVals, attemptVal, sentVals, sentVal, List.filterMap_cons]
  · left
    refine ⟨hf, ?_⟩
    simp only [hf, if_neg, ite_false]
    split <;> simp [attemptVals, attemptVal, sentVals, sentVal]

/-- The idle-heartbeat step never touches the counter, the send timer or
    the characteristic. -/
theorem idleHeartbeatStep_frame (s : FwState) (t : Nat) :
    (idleHeartbeatStep s t).1.currentNumber = s.currentNumber ∧
    (idleHeartbeatStep s t).1.lastNumberSent = s.lastNumberSent ∧
    (idleHeartbeatStep s t).1.wasConnected = s.wasConnected ∧
    attemptVals (idleHeartbeatStep s t).2 = [] ∧
    ∀ e ∈ (idleHeartbeatStep s t).2, e = Event.idleHeartbeat := by
  unfold idleHeartbeatStep
  repeat' split
  all_goals simp [attemptVals, attemptVal]

/-- The connect step never touches the counter, the send timer or the
    characteristic. -/
theorem connectStep_frame (s : FwState) (t : Nat) :
    (connectStep s t).1.currentNumber = s.currentNumber ∧
    (connectStep s t).1.lastNumberSent = s.lastNumberSent ∧
    (connectStep s t).1.lastHeartbeat = s.lastHeartbeat ∧
    attemptVals (connectStep s t).2 = [] := by
  unfold connectStep
  split <;> simp [attemptVals, attemptVal]

/-- The disconnect step never touches the counter, the send timer or the
    characteristic. -/
theorem disconnectStep_frame (s : FwState) (logT resetT : Nat) :
    (disconnectStep s logT resetT).1.currentNumber = s.currentNumber ∧
    (disconnectStep s logT resetT).1.lastNumberSent = s.lastNumberSent ∧
    attemptVals (disconnectStep s logT resetT).2 = [] := by
  unfold disconnectStep
  simp [attemptVals, attemptVal]

/-- C2: while a session is active the scheduler triggers a send if and only
    if at least 1000 ms have elapsed since the last send; in particular at
    999 ms elapsed it does not send and at 1000 ms elapsed it does. -/
theorem scheduler_fires_iff (s : FwState) (inp : TickInput)
    (hmono : s.lastNumberSent ≤ inp.time) (hT : inp.time < UL_MOD) :
    (attemptVals (connectedTick s inp).2 ≠ [] ↔
      1000 ≤ inp.time - s.lastNumberSent) ∧
    (inp.time = s.lastNumberSent + 999 → attemptVals (connectedTick s inp).2 = []) ∧
    (inp.time = s.lastNumberSent + 1000 → attemptVals (connectedTick s inp).2 ≠ []) := by
  have hul : ulSub inp.time s.lastNumberSent = inp.time - s.lastNumberSent :=
    ulSub_eq_sub _ _ hmono hT
  have hiff : attemptVals (connectedTick s inp).2 ≠ [] ↔
      1000 ≤ inp.time - s.lastNumberSent := by
    rcases connectedTick_cases s inp with ⟨hc, _, _, ha, _⟩ | ⟨hc, _, _, ha, _⟩ <;>
      rw [ha] <;> rw [hul] at hc <;> simp [hc]
  refine ⟨hiff, ?_, ?_⟩
  · intro h
    by_contra hne
    have := hiff.mp hne
    omega
  · intro h
    exact hiff.mpr (by omega)

/-- C2 witness at a concrete state and tick. -/
theorem scheduler_fires_iff_witness :
    (5000 ≤ 6000 ∧ 6000 < UL_MOD) ∧
    ((attemptVals (connectedTick ⟨0, 0, 0, true, 7, 5000⟩ ⟨6000, true, -40⟩).2 ≠ [] ↔
        1000 ≤ 6000 - 5000) ∧
      (6000 = 5000 + 999 →
        attemptVals (connectedTick ⟨0, 0, 0, true, 7, 5000⟩ ⟨6000, true, -40⟩).2 = []) ∧
      (6000 = 5000 + 1000 →
        attemptVals (connectedTick ⟨0, 0, 0, true, 7, 5000⟩ ⟨6000, true, -40⟩).2 ≠ [])) :=
  ⟨⟨by decide, by decide⟩,
   scheduler_fires_iff ⟨0, 0, 0, true, 7, 5000⟩ ⟨6000, true, -40⟩ (by decide) (by decide)⟩

/-- C4: on a qualifying tick the send timer is committed to the tick time
    and the resulting state does not depend on whether the characteristic
    write succeeded; the counter has advanced in either case. -/
theorem send_commits_regardless (s : FwState) (t : Nat) (r : Int)
    (hfire : 1000 ≤ ulSub t s.lastNumberSent) :
    (connectedTick s ⟨t, true, r⟩).1 = (connectedTick s ⟨t, false, r⟩).1 ∧
    (connectedTick s ⟨t, true, r⟩).1.lastNumberSent = t ∧
    (connectedTick s ⟨t, true, r⟩).1.currentNumber
      = (if s.currentNumber + 1 > 100 then 0 else s.currentNumber + 1) := by
  unfold connectedTick sendStep hbStep NUMBER_SEND_INTERVAL
  simp only [hfire, if_pos]
  repeat' split
  all_goals simp_all

/-- C4 witness at a concrete qualifying tick. -/
theorem send_commits_regardless_witness :
    1000 ≤ ulSub 2500 100 ∧
    ((connectedTick ⟨0, 0, 0, true, 100, 100⟩ ⟨2500, true, -55⟩).1
        = (connectedTick ⟨0, 0, 0, true, 100, 100⟩ ⟨2500, false, -55⟩).1 ∧
      (connectedTick ⟨0, 0, 0, true, 100, 100⟩ ⟨2500, true, -55⟩).1.lastNumberSent = 2500 ∧
      (connectedTick ⟨0, 0, 0, true, 100, 100⟩ ⟨2500, true, -55⟩).1.currentNumber
        = (if (100 : Int) + 1 > 100 then 0 else (100 : Int) + 1)) :=
  ⟨by decide, send_commits_regardless ⟨0, 0, 0, true, 100, 100⟩ 2500 (-55) (by decide)⟩

/-- C5: the Connected-to-Idle transition clears the session flag, resets
    the heartbeat timer from the fresh time reading, restarts advertising,
    and leaves the counter (and the send timer) unchanged for the next
    connection. -/
theorem disconnect_transition_effects (s : FwState) (logT resetT : Nat) :
    (disconnectStep s logT resetT).1.wasConnected = false ∧
    (disconnectStep s logT resetT).1.lastHeartbeat = resetT ∧
    Event.advertise ∈ (disconnectStep s logT resetT).2 ∧
    (disconnectStep s logT resetT).1.currentNumber = s.currentNumber ∧
    (disconnectStep s logT resetT).1.lastNumberSent = s.lastNumberSent := by
  unfold disconnectStep
  simp

/-- C6: a loop iteration with no central present performs no write attempt,
    leaves the counter and the send timer unchanged, and emits at most the
    idle heartbeat diagnostic. -/
theorem idle_no_send (s : FwState) (inp : LoopInput)
    (h : inp.centralPresent = false) :
    (loopIter s inp).1.currentNumber = s.currentNumber ∧
    (loopIter s inp).1.lastNumberSent = s.lastNumberSent ∧
    attemptVals (loopIter s inp).2 = [] ∧
    ∀ e ∈ (loopIter s inp).2, e = Event.idleHeartbeat := by
  have hfr := idleHeartbeatStep_frame s inp.time
  unfold loopIter
  simp only [h, Bool.false_eq_true, if_false]
  exact ⟨hfr.1, hfr.2.1, hfr.2.2.2.1, hfr.2.2.2.2⟩

/-- C6 witness at a concrete idle iteration. -/
theorem idle_no_send_witness :
    (LoopInput.mk 20000 false [] 0 0).centralPresent = false ∧
    ((loopIter ⟨0, 0, 0, false, 42, 3000⟩ (LoopInput.mk 20000 false [] 0 0)).1.currentNumber = 42 ∧
      (loopIter ⟨0, 0, 0, false, 42, 3000⟩ (LoopInput.mk 20000 false [] 0 0)).1.lastNumberSent = 3000 ∧
      attemptVals (loopIter ⟨0, 0, 0, false, 42, 3000⟩ (LoopInput.mk 20000 false [] 0 0)).2 = [] ∧
      ∀ e ∈ (loopIter ⟨0, 0, 0, false, 42, 3000⟩ (LoopInput.mk 20000 false [] 0 0)).2,
        e = Event.idleHeartbeat) :=
  ⟨rfl, idle_no_send ⟨0, 0, 0, false, 42, 3000⟩ (LoopInput.mk 20000 false [] 0 0) rfl⟩

/-- C7: if transport initialization fails, `setup` ends in the halted
    diagnostic phase and no number of scheduler steps ever leaves it, so
    the main loop is never reached. -/
theorem init_failure_halts (setupEndTime : Nat) (inputs : List LoopInput) :
    setupPhase false setupEndTime = Phase.haltedInit ∧
    sysRun (setupPhase false setupEndTime) inputs = Phase.haltedInit := by
  refine ⟨rfl, ?_⟩
  show sysRun Phase.haltedInit inputs = Phase.haltedInit
  induction inputs with
  | nil => rfl
  | cons i rest ih => exact ih

/-- The send step never touches the heartbeat timer and never emits a
    heartbeat event. -/
theorem sendStep_keeps_heartbeat (s : FwState) (inp : TickInput) :
    (sendStep s inp).1.lastHeartbeat = s.lastHeartbeat ∧
    Event.heartbeat inp.rssi ∉ (sendStep s inp).2 := by
  unfold sendStep
  repeat' split
  all_goals simp

/-- C8: during a connected tick the connection-alive heartbeat (carrying
    the RSSI reading) is emitted exactly when more than 30000 ms of session
    time have elapsed since the previous heartbeat, and emitting it resets
    the heartbeat timer to the current time. -/
theorem heartbeat_every_30s (s : FwState) (inp : TickInput)
    (hmono : s.lastHeartbeat ≤ inp.time) (hT : inp.time < UL_MOD) :
    (Event.heartbeat inp.rssi ∈ (connectedTick s inp).2 ↔
      30000 < inp.time - s.lastHeartbeat) ∧
    (30000 < inp.time - s.lastHeartbeat →
      (connectedTick s inp).1.lastHeartbeat = inp.time) ∧
    (inp.time - s.lastHeartbeat ≤ 30000 →
      (connectedTick s inp).1.lastHeartbeat = s.lastHeartbeat) := by
  have hul : ulSub inp.time s.lastHeartbeat = inp.time - s.lastHeartbeat :=
    ulSub_eq_sub _ _ hmono hT
  have hss := sendStep_keeps_heartbeat s inp
  have hev : (connectedTick s inp).2
      = (sendStep s inp).2 ++ (hbStep (sendStep s inp).1 inp).2 := rfl
  have hst : (connectedTick s inp).1 = (hbStep (sendStep s inp).1 inp).1 := rfl
  by_cases hb : 30000 < inp.time - s.lastHeartbeat
  · have hcond : ulSub inp.time (sendStep s inp).1.lastHeartbeat > 30000 := by
      rw [hss.1, hul]; exact hb
    have h2 : hbStep (sendStep s inp).1 inp
        = ({ (sendStep s inp).1 with lastHeartbeat := inp.time },
           [Event.heartbeat inp.rssi]) := by
      unfold hbStep; simp [hcond]
    refine ⟨?_, fun _ => ?_, fun hle => absurd hb (not_lt.mpr hle)⟩
    · rw [hev, h2]; simp [hb]
    · rw [hst, h2]
  · have hcond : ¬ ulSub inp.time (sendStep s inp).1.lastHeartbeat > 30000 := by
      rw [hss.1, hul]; exact hb
    have h2 : hbStep (sendStep s inp).1 inp = ((sendStep s inp).1, []) := by
      unfold hbStep; simp [hcond]
    refine ⟨?_, fun hgt => absurd hgt hb, fun _ => ?_⟩
    · rw [hev, h2]
      simp only [List.append_nil]
      exact ⟨fun hmem => absurd hmem hss.2, fun hgt => absurd hgt hb⟩
    · rw [hst, h2, hss.1]

/-- C8 witness at a concrete connected tick 40000 ms after the last
    heartbeat. -/
theorem heartbeat_every_30s_witness :
    ((0 : Nat) ≤ 40000 ∧ 40000 < UL_MOD) ∧
    ((Event.heartbeat (-60) ∈ (connectedTick ⟨0, 0, 0, true, 5, 39500⟩ ⟨40000, true, -60⟩).2 ↔
        30000 < 40000 - (0 : Nat)) ∧
      (30000 < 40000 - (0 : Nat) →
        (connectedTick ⟨0, 0, 0, true, 5, 39500⟩ ⟨40000, true, -60⟩).1.lastHeartbeat = 40000) ∧
      (40000 - (0 : Nat) ≤ 30000 →
        (connectedTick ⟨0, 0, 0, true, 5, 39500⟩ ⟨40000, true, -60⟩).1.lastHeartbeat = 0)) :=
  ⟨⟨by decide, by decide⟩,
   heartbeat_every_30s ⟨0, 0, 0, true, 5, 39500⟩ ⟨40000, true, -60⟩ (by decide) (by decide)⟩

/-- One connected tick preserves the counter bound, and every write attempt
    it makes carries a value in [0, 100]. -/
theorem counterInv_connectedTick (s : FwState) (inp : TickInput) (h : counterInv s) :
    counterInv (connectedTick s inp).1 ∧
    ∀ v ∈ attemptVals (connectedTick s inp).2, 0 ≤ v ∧ v ≤ 100 := by
  rcases connectedTick_cases s inp with ⟨_, hc, _, ha, _⟩ | ⟨_, hc, _, ha, _⟩
  · rw [ha]
    refine ⟨?_, by simp⟩
    unfold counterInv at *
    rw [hc]; exact h
  · rw [ha]
    unfold counterInv at *
    rw [hc]
    constructor
    · split <;> omega
    · intro v hv
      simp only [List.mem_singleton] at hv
      subst hv
      split <;> omega

/-- The connected loop preserves the counter bound, and every write attempt
    carries a value in [0, 100]. -/
theorem counterInv_connectedLoop (ticks : List TickInput) : ∀ s : FwState, counterInv s →
    counterInv (connectedLoop s ticks).1 ∧
    ∀ v ∈ attemptVals (connectedLoop s ticks).2, 0 ≤ v ∧ v ≤ 100 := by
  induction ticks with
  | nil =>
    intro s h
    exact ⟨h, by simp [connectedLoop, attemptVals]⟩
  | cons t rest ih =>
    intro s h
    have h1 := counterInv_connectedTick s t h
    have h2 := ih (connectedTick s t).1 h1.1
    have hev : (connectedLoop s (t :: rest)).2
        = (connectedTick s t).2 ++ (connectedLoop (connectedTick s t).1 rest).2 := rfl
    have hst : (connectedLoop s (t :: rest)).1
        = (connectedLoop (connectedTick s t).1 rest).1 := rfl
    rw [hst, hev, attemptVals_append]
    refine ⟨h2.1, ?_⟩
    intro v hv
    rcases List.mem_append.mp hv with hv | hv
    · exact h1.2 v hv
    · exact h2.2 v hv

/-- One whole `loop()` call preserves the counter bound, and every write
    attempt carries a value in [0, 100]. -/
theorem counterInv_loopIter (s : FwState) (inp : LoopInput) (h : counterInv s) :
    counterInv (loopIter s inp).1 ∧
    ∀ v ∈ attemptVals (loopIter s inp).2, 0 ≤ v ∧ v ≤ 100 := by
  have h0 := idleHeartbeatStep_frame s inp.time
  by_cases hc : inp.centralPresent = true
  · have h1 := connectStep_frame (idleHeartbeatStep s inp.time).1 inp.time
    have hinv2 : counterInv (connectStep (idleHeartbeatStep s inp.time).1 inp.time).1 := by
      unfold counterInv at *
      rw [h1.1, h0.1]; exact h
    have h2 := counterInv_connectedLoop inp.ticks _ hinv2
    have h3 := disconnectStep_frame
      (connectedLoop (connectStep (idleHeartbeatStep s inp.time).1 inp.time).1 inp.ticks).1
      inp.dcLogTime inp.dcResetTime
    have hev : (loopIter s inp).2
        = (idleHeartbeatStep s inp.time).2
          ++ (connectStep (idleHeartbeatStep s inp.time).1 inp.time).2
          ++ (connectedLoop (connectStep (idleHeartbeatStep s inp.time).1 inp.time).1
                inp.ticks).2
          ++ (disconnectStep
                (connectedLoop (connectStep (idleHeartbeatStep s inp.time).1 inp.time).1
                  inp.ticks).1
                inp.dcLogTime inp.dcResetTime).2 := by
      unfold loopIter
      simp only [hc, if_true]
    have hst : (loopIter s inp).1
        = (disconnectStep
            (connectedLoop (connectStep (idleHeartbeatStep s inp.time).1 inp.time).1
              inp.ticks).1
            inp.dcLogTime inp.dcResetTime).1 := by
      unfold loopIter
      simp only [hc, if_true]
    constructor
    · unfold counterInv at *
      rw [hst, h3.1]; exact h2.1
    · rw [hev]
      simp only [attemptVals_append, h0.2.2.2.1, h1.2.2.2, h3.2.2,
        List.nil_append, List.append_nil]
      exact h2.2
  · have hloop : loopIter s inp = idleHeartbeatStep s inp.time := by
      unfold loopIter
      simp [hc]
    rw [hloop]
    constructor
    · unfold counterInv at *
      rw [h0.1]; exact h
    · rw [h0.2.2.2.1]; simp

/-- Any number of `loop()` calls preserves the counter bound, and every
    write attempt carries a value in [0, 100]. -/
theorem counterInv_run (inputs : List LoopInput) : ∀ s : FwState, counterInv s →
    counterInv (run s inputs).1 ∧
    ∀ v ∈ attemptVals (run s inputs).2, 0 ≤ v ∧ v ≤ 100 := by
  induction inputs with
  | nil =>
    intro s h
    exact ⟨h, by simp [run, attemptVals]⟩
  | cons i rest ih =>
    intro s h
    have h1 := counterInv_loopIter s i h
    have h2 := ih (loopIter s i).1 h1.1
    have hev : (run s (i :: rest)).2
        = (loopIter s i).2 ++ (run (loopIter s i).1 rest).2 := rfl
    have hst : (run s (i :: rest)).1 = (run (loopIter s i).1 rest).1 := rfl
    rw [hst, hev, attemptVals_append]
    refine ⟨h2.1, ?_⟩
    intro v hv
    rcases List.mem_append.mp hv with hv | hv
    · exact h1.2 v hv
    · exact h2.2 v hv

/-- C3: starting from the power-on state, after any sequence of loop
    iterations the counter is in [0, 100], and every value ever passed to
    the characteristic write is in [0, 100] (the wrap is applied before
    transmission). -/
theorem counter_always_bounded (setupEndTime : Nat) (inputs : List LoopInput) :
    counterInv (run (initState setupEndTime) inputs).1 ∧
    ∀ v ∈ attemptVals (run (initState setupEndTime) inputs).2, 0 ≤ v ∧ v ≤ 100 :=
  counterInv_run inputs (initState setupEndTime) (by unfold counterInv initState; simp)

/-- C3 witness on a concrete two-iteration trace. -/
theorem counter_always_bounded_witness :
    counterInv (run (initState 0)
      [⟨0, true, [⟨1000, true, 0⟩, ⟨2100, false, 0⟩], 2200, 2200⟩,
       ⟨2300, false, [], 0, 0⟩]).1 ∧
    ∀ v ∈ attemptVals (run (initState 0)
      [⟨0, true, [⟨1000, true, 0⟩, ⟨2100, false, 0⟩], 2200, 2200⟩,
       ⟨2300, false, [], 0, 0⟩]).2, 0 ≤ v ∧ v ≤ 100 :=
  counter_always_bounded 0
    [⟨0, true, [⟨1000, true, 0⟩, ⟨2100, false, 0⟩], 2200, 2200⟩,
     ⟨2300, false, [], 0, 0⟩]

/-- There is a length k for which the successfully sent values of a
    connected loop with all writes succeeding form the arithmetic sequence
    (c0+1, ..., c0+k) mod 101. -/
theorem sentVals_formula_aux (ticks : List TickInput) : ∀ s : FwState,
    0 ≤ s.currentNumber → s.currentNumber ≤ 100 →
    (∀ t ∈ ticks, t.writeOk = true) →
    ∃ k : Nat, sentVals (connectedLoop s ticks).2 =
      (List.range k).map (fun i : Nat => (s.currentNumber + (i : Int) + 1) % 101) := by
  induction ticks with
  | nil =>
    intro s _ _ _
    exact ⟨0, by simp [connectedLoop, sentVals]⟩
  | cons t rest ih =>
    intro s h0 h1 hok
    have hev : (connectedLoop s (t :: rest)).2
        = (connectedTick s t).2 ++ (connectedLoop (connectedTick s t).1 rest).2 := rfl
    have hokt : t.writeOk = true := hok t (List.mem_cons_self t rest)
    have hokr : ∀ u ∈ rest, u.writeOk = true :=
      fun u hu => hok u (List.mem_cons_of_mem t hu)
    rcases connectedTick_cases s t with ⟨_, hc, _, _, hs⟩ | ⟨_, hc, _, _, hs⟩
    · obtain ⟨k, hk⟩ := ih (connectedTick s t).1
        (by rw [hc]; exact h0) (by rw [hc]; exact h1) hokr
      refine ⟨k, ?_⟩
      rw [hev, sentVals_append, hs, List.nil_append, hk, hc]
    · simp only [hokt, if_true] at hs
      obtain ⟨k, hk⟩ := ih (connectedTick s t).1
        (by rw [hc]; split <;> omega) (by rw [hc]; split <;> omega) hokr
      refine ⟨k + 1, ?_⟩
      rw [hev, sentVals_append, hs, hk, hc]
      rw [List.range_succ_eq_map, List.map_cons, List.map_map]
      have hhead : (if s.currentNumber + 1 > 100 then (0 : Int) else s.currentNumber + 1)
          = (s.currentNumber + ((0 : Nat) : Int) + 1) % 101 := by
        push_cast
        split <;> omega
      rw [hhead]
      have htail : (fun i : Nat =>
            ((s.currentNumber + ((0 : Nat) : Int) + 1) % 101 + (i : Int) + 1) % 101)
          = (fun i : Nat => (s.currentNumber + (i : Int) + 1) % 101) ∘ Nat.succ := by
        funext i
        simp only [Function.comp]
        push_cast
        omega
      rw [htail]
      rfl

/-- C1: with Counter starting at c0 in [0, 100], the values successfully
    transmitted by a run of the connected loop in which every write
    succeeds are (c0+1, c0+2, ...) mod 101, each in [0, 100]; in
    particular a send firing at Counter = 100 transmits 0, never 101. -/
theorem transmitted_sequence (s : FwState) (ticks : List TickInput)
    (h0 : 0 ≤ s.currentNumber) (h1 : s.currentNumber ≤ 100)
    (hok : ∀ t ∈ ticks, t.writeOk = true) :
    sentVals (connectedLoop s ticks).2 =
      (List.range (sentVals (connectedLoop s ticks).2).length).map
        (fun i : Nat => (s.currentNumber + (i : Int) + 1) % 101) ∧
    ∀ v ∈ sentVals (connectedLoop s ticks).2, 0 ≤ v ∧ v ≤ 100 := by
  obtain ⟨k, hk⟩ := sentVals_formula_aux ticks s h0 h1 hok
  constructor
  · rw [hk]
    simp
  · intro v hv
    rw [hk] at hv
    simp only [List.mem_map, List.mem_range] at hv
    obtain ⟨i, _, hi⟩ := hv
    omega

/-- C1 witness: Counter = 99 and three successful sends, exercising the
    wrap 100, 0, 1. -/
theorem transmitted_sequence_witness :
    ((0 : Int) ≤ 99 ∧ (99 : Int) ≤ 100 ∧
      ∀ t ∈ [TickInput.mk 1000 true 0, TickInput.mk 2000 true 0, TickInput.mk 3000 true 0],
        t.writeOk = true) ∧
    (sentVals (connectedLoop ⟨0, 0, 0, true, 99, 0⟩
        [TickInput.mk 1000 true 0, TickInput.mk 2000 true 0, TickInput.mk 3000 true 0]).2 =
      (List.range (sentVals (connectedLoop ⟨0, 0, 0, true, 99, 0⟩
          [TickInput.mk 1000 true 0, TickInput.mk 2000 true 0,
           TickInput.mk 3000 true 0]).2).length).map
        (fun i : Nat => ((99 : Int) + (i : Int) + 1) % 101) ∧
      ∀ v ∈ sentVals (connectedLoop ⟨0, 0, 0, true, 99, 0⟩
          [TickInput.mk 1000 true 0, TickInput.mk 2000 true 0, TickInput.mk 3000 true 0]).2,
        0 ≤ v ∧ v ≤ 100) :=
  ⟨⟨by decide, by decide, by decide⟩,
   transmitted_sequence ⟨0, 0, 0, true, 99, 0⟩
     [TickInput.mk 1000 true 0, TickInput.mk 2000 true 0, TickInput.mk 3000 true 0]
     (by decide) (by decide) (by decide)⟩

/-- If a connected loop makes no write attempt the counter is unchanged,
    and the first value it attempts to write is the incremented-and-wrapped
    initial counter. -/
theorem firstAttempt_connectedLoop (ticks : List TickInput) : ∀ s : FwState,
    (attemptVals (connectedLoop s ticks).2 = [] →
      (connectedLoop s ticks).1.currentNumber = s.currentNumber) ∧
    ∀ v vs, attemptVals (connectedLoop s ticks).2 = v :: vs →
      v = (if s.currentNumber + 1 > 100 then 0 else s.currentNumber + 1) := by
  induction ticks with
  | nil =>
    intro s
    refine ⟨fun _ => rfl, fun v vs h => ?_⟩
    simp [connectedLoop, attemptVals] at h
  | cons t rest ih =>
    intro s
    have hev : attemptVals (connectedLoop s (t :: rest)).2
        = attemptVals (connectedTick s t).2
          ++ attemptVals (connectedLoop (connectedTick s t).1 rest).2 := by
      rw [show (connectedLoop s (t :: rest)).2
          = (connectedTick s t).2 ++ (connectedLoop (connectedTick s t).1 rest).2 from rfl,
        attemptVals_append]
    have hst : (connectedLoop s (t :: rest)).1
        = (connectedLoop (connectedTick s t).1 rest).1 := rfl
    have iht := ih (connectedTick s t).1
    rcases connectedTick_cases s t with ⟨_, hc, _, ha, _⟩ | ⟨_, hc, _, ha, _⟩
    · rw [hev, ha, List.nil_append]
      constructor
      · intro hnil
        rw [hst, iht.1 hnil, hc]
      · intro v vs h
        rw [iht.2 v vs h, hc]
    · rw [hev, ha]
      constructor
      · intro hnil
        exact absurd hnil (List.cons_ne_nil _ _)
      · intro v vs h
        rw [List.cons_append] at h
        exact (List.cons_eq_cons.mp h).1.symm

/-- If a whole `loop()` call makes no write attempt the counter is
    unchanged, and the first value it attempts to write is the
    incremented-and-wrapped initial counter. -/
theorem firstAttempt_loopIter (s : FwState) (inp : LoopInput) :
    (attemptVals (loopIter s inp).2 = [] →
      (loopIter s inp).1.currentNumber = s.currentNumber) ∧
    ∀ v vs, attemptVals (loopIter s inp).2 = v :: vs →
      v = (if s.currentNumber + 1 > 100 then 0 else s.currentNumber + 1) := by
  have h0 := idleHeartbeatStep_frame s inp.time
  by_cases hc : inp.centralPresent = true
  · have h1 := connectStep_frame (idleHeartbeatStep s inp.time).1 inp.time
    have h2 := firstAttempt_connectedLoop inp.ticks
      (connectStep (idleHeartbeatStep s inp.time).1 inp.time).1
    have h3 := disconnectStep_frame
      (connectedLoop (connectStep (idleHeartbeatStep s inp.time).1 inp.time).1 inp.ticks).1
      inp.dcLogTime inp.dcResetTime
    have hcn : (connectStep (idleHeartbeatStep s inp.time).1 inp.time).1.currentNumber
        = s.currentNumber := by rw [h1.1, h0.1]
    have hev : attemptVals (loopIter s inp).2
        = attemptVals
            (connectedLoop (connectStep (idleHeartbeatStep s inp.time).1 inp.time).1
              inp.ticks).2 := by
      have : (loopIter s inp).2
          = (idleHeartbeatStep s inp.time).2
            ++ (connectStep (idleHeartbeatStep s inp.time).1 inp.time).2
            ++ (connectedLoop (connectStep (idleHeartbeatStep s inp.time).1 inp.time).1
                  inp.ticks).2
            ++ (disconnectStep
                  (connectedLoop (connectStep (idleHeartbeatStep s inp.time).1 inp.time).1
                    inp.ticks).1
                  inp.dcLogTime inp.dcResetTime).2 := by
        unfold loopIter
        simp only [hc, if_true]
      rw [this]
      simp only [attemptVals_append, h0.2.2.2.1, h1.2.2.2, h3.2.2,
        List.nil_append, List.append_nil]
    have hstate : (loopIter s inp).1
        = (disconnectStep
            (connectedLoop (connectStep (idleHeartbeatStep s inp.time).1 inp.time).1
              inp.ticks).1
            inp.dcLogTime inp.dcResetTime).1 := by
      unfold loopIter
      simp only [hc, if_true]
    constructor
    · intro hnil
      rw [hev] at hnil
      rw [hstate, h3.1, h2.1 hnil, hcn]
    · intro v vs h
      rw [hev] at h
      rw [h2.2 v vs h, hcn]
  · have hloop : loopIter s inp = idleHeartbeatStep s inp.time := by
      unfold loopIter
      simp [hc]
    rw [hloop, h0.2.2.2.1]
    exact ⟨fun _ => h0.1, fun v vs h => absurd h (List.noConfusion)⟩

/-- If a whole power-on run makes no write attempt the counter is
    unchanged, and the first value it ever attempts to write is the
    incremented-and-wrapped initial counter. -/
theorem firstAttempt_run (inputs : List LoopInput) : ∀ s : FwState,
    (attemptVals (run s inputs).2 = [] →
      (run s inputs).1.currentNumber = s.currentNumber) ∧
    ∀ v vs, attemptVals (run s inputs).2 = v :: vs →
      v = (if s.currentNumber + 1 > 100 then 0 else s.currentNumber + 1) := by
  induction inputs with
  | nil =>
    intro s
    refine ⟨fun _ => rfl, fun v vs h => ?_⟩
    simp [run, attemptVals] at h
  | cons i rest ih =>
    intro s
    have hev : attemptVals (run s (i :: rest)).2
        = attemptVals (loopIter s i).2 ++ attemptVals (run (loopIter s i).1 rest).2 := by
      rw [show (run s (i :: rest)).2
          = (loopIter s i).2 ++ (run (loopIter s i).1 rest).2 from rfl, attemptVals_append]
    have hst : (run s (i :: rest)).1 = (run (loopIter s i).1 rest).1 := rfl
    have hli := firstAttempt_loopIter s i
    have ihr := ih (loopIter s i).1
    by_cases hnil : attemptVals (loopIter s i).2 = []
    · rw [hev, hnil, List.nil_append]
      have hcn := hli.1 hnil
      constructor
      · intro h2
        rw [hst, ihr.1 h2, hcn]
      · intro v vs h
        rw [ihr.2 v vs h, hcn]
    · obtain ⟨v0, vs0, hv0⟩ := List.exists_cons_of_ne_nil hnil
      rw [hev, hv0]
      refine ⟨fun h => absurd h (List.cons_ne_nil _ _), fun v vs h => ?_⟩
      rw [List.cons_append] at h
      rw [← (List.cons_eq_cons.mp h).1]
      exact hli.2 v0 vs0 hv0

/-- C9: on any run from the power-on state, the first value ever passed to
    the characteristic write during a connection is 1: the counter starts
    at 0 and the first qualifying tick increments it to 1 before writing. -/
theorem first_send_is_one (setupEndTime : Nat) (inputs : List LoopInput)
    (v : Int) (vs : List Int)
    (h : attemptVals (run (initState setupEndTime) inputs).2 = v :: vs) :
    v = 1 := by
  have hv := (firstAttempt_run inputs (initState setupEndTime)).2 v vs h
  norm_num [initState] at hv
  exact hv

/-- C9 witness: a concrete run whose first write attempt carries 1. -/
theorem first_send_is_one_witness :
    attemptVals (run (initState 0)
      [LoopInput.mk 0 true [TickInput.mk 1000 true 0, TickInput.mk 2000 true 0] 2100 2100]).2
      = 1 :: [2] ∧ (1 : Int) = 1 :=
  ⟨by decide,
   first_send_is_one 0
     [LoopInput.mk 0 true [TickInput.mk 1000 true 0, TickInput.mk 2000 true 0] 2100 2100]
     1 [2] (by decide)⟩

/-- C10: the Idle-to-Connected transition leaves the send timer untouched,
    so a reconnection at least 1000 ms after the previous session's last
    send fires a send on the very first connected tick. -/
theorem reconnect_keeps_send_timer (s : FwState) (connectTime : Nat) (t0 : TickInput)
    (rest : List TickInput) (dcLog dcReset : Nat)
    (hidle : s.wasConnected = false)
    (hfire : 1000 ≤ ulSub t0.time s.lastNumberSent) :
    (connectStep (idleHeartbeatStep s connectTime).1 connectTime).1.lastNumberSent
      = s.lastNumberSent ∧
    attemptVals (connectedTick
      (connectStep (idleHeartbeatStep s connectTime).1 connectTime).1 t0).2 ≠ [] ∧
    attemptVals (loopIter s (LoopInput.mk connectTime true (t0 :: rest) dcLog dcReset)).2
      ≠ [] := by
  have h0 := idleHeartbeatStep_frame s connectTime
  have h1 := connectStep_frame (idleHeartbeatStep s connectTime).1 connectTime
  have hls : (connectStep (idleHeartbeatStep s connectTime).1 connectTime).1.lastNumberSent
      = s.lastNumberSent := by rw [h1.2.1, h0.2.1]
  have htick : attemptVals (connectedTick
      (connectStep (idleHeartbeatStep s connectTime).1 connectTime).1 t0).2 ≠ [] := by
    rcases connectedTick_cases
        (connectStep (idleHeartbeatStep s connectTime).1 connectTime).1 t0 with
      ⟨hnc, _⟩ | ⟨_, _, _, ha, _⟩
    · rw [hls] at hnc
      exact absurd hfire hnc
    · rw [ha]
      exact List.cons_ne_nil _ _
  refine ⟨hls, htick, ?_⟩
  have h3 := disconnectStep_frame
    (connectedLoop (connectStep (idleHeartbeatStep s connectTime).1 connectTime).1
      (t0 :: rest)).1 dcLog dcReset
  have hev : attemptVals
      (loopIter s (LoopInput.mk connectTime true (t0 :: rest) dcLog dcReset)).2
      = attemptVals (connectedTick
          (connectStep (idleHeartbeatStep s connectTime).1 connectTime).1 t0).2
        ++ attemptVals (connectedLoop
            (connectedTick
              (connectStep (idleHeartbeatStep s connectTime).1 connectTime).1 t0).1
            rest).2 := by
    have hl : (loopIter s (LoopInput.mk connectTime true (t0 :: rest) dcLog dcReset)).2
        = (idleHeartbeatStep s connectTime).2
          ++ (connectStep (idleHeartbeatStep s connectTime).1 connectTime).2
          ++ (connectedLoop (connectStep (idleHeartbeatStep s connectTime).1 connectTime).1
                (t0 :: rest)).2
          ++ (disconnectStep
                (connectedLoop (connectStep (idleHeartbeatStep s connectTime).1 connectTime).1
                  (t0 :: rest)).1 dcLog dcReset).2 := by
      unfold loopIter
      simp only [if_true]
    rw [hl]
    simp only [attemptVals_append, h0.2.2.2.1, h1.2.2.2, h3.2.2,
      List.nil_append, List.append_nil]
    rw [show (connectedLoop (connectStep (idleHeartbeatStep s connectTime).1 connectTime).1
          (t0 :: rest)).2
        = (connectedTick (connectStep (idleHeartbeatStep s connectTime).1 connectTime).1 t0).2
          ++ (connectedLoop
              (connectedTick
                (connectStep (idleHeartbeatStep s connectTime).1 connectTime).1 t0).1
              rest).2 from rfl, attemptVals_append]
  rw [hev]
  intro hcontra
  exact htick (List.append_eq_nil.mp hcontra).1

/-- C10 witness: reconnection 1500 ms after the last send fires
    immediately on the first connected tick. -/
theorem reconnect_keeps_send_timer_witness :
    ((FwState.mk 0 0 0 false 7 0).wasConnected = false ∧
      1000 ≤ ulSub 1500 (FwState.mk 0 0 0 false 7 0).lastNumberSent) ∧
    ((connectStep (idleHeartbeatStep (FwState.mk 0 0 0 false 7 0) 200).1 200).1.lastNumberSent
        = (FwState.mk 0 0 0 false 7 0).lastNumberSent ∧
      attemptVals (connectedTick
        (connectStep (idleHeartbeatStep (FwState.mk 0 0 0 false 7 0) 200).1 200).1
        (TickInput.mk 1500 true 0)).2 ≠ [] ∧
      attemptVals (loopIter (FwState.mk 0 0 0 false 7 0)
        (LoopInput.mk 200 true [TickInput.mk 1500 true 0] 1600 1600)).2 ≠ []) :=
  ⟨⟨by decide, by decide⟩,
   reconnect_keeps_send_timer (FwState.mk 0 0 0 false 7 0) 200 (TickInput.mk 1500 true 0)
     [] 1600 1600 (by decide) (by decide)⟩

end Arduino
